import Mathlib

/-!
Shallow embedding of the ConQuerX pipeline's core components (content cache,
backoff retrier, knowledge retriever, response validators, quiz evaluation)
and proofs of the behavioural properties of those components.

Python strings are modelled as Lean `String` (ASCII-focused: `lower()` is
`Char.toLower`, `strip()` removes the ASCII whitespace characters, and the
regular-expression class `\s` is the same ASCII whitespace set). Machine
floats in the retry delays are modelled as rationals; the random jitter
value drawn from `[0, 1)` is modelled as an oracle `j : Nat → ℚ` supplied
with the hypothesis `0 ≤ j t < 1`. Fallible Python calls are modelled as
`Except` values.
-/

namespace ConQuerX

/-! ## Python string primitives (src/utils/validation.py helpers) -/

/-- Characters matched by Python `str.strip()` and by the regex class `\s`
(ASCII fragment): space, tab, newline, carriage return, vertical tab, form feed. -/
def isPySpace (c : Char) : Bool :=
  c = ' ' || c = '\t' || c = '\n' || c = '\r' || c = '\x0b' || c = '\x0c'

/-- Python `str.strip()` on a character list: drop whitespace from both ends. -/
def pyStripList (l : List Char) : List Char :=
  ((l.dropWhile isPySpace).reverse.dropWhile isPySpace).reverse

/-- Python `str.strip()`. -/
def pyStrip (s : String) : String :=
  ⟨pyStripList s.data⟩

/-- Python `str.startswith(pre)`. -/
def pyStartsWith (s pre : String) : Bool :=
  pre.data.isPrefixOf s.data

/-- Substring test on character lists (helper for Python `needle in hay`). -/
def hasSubstrList (needle : List Char) : List Char → Bool
  | [] => needle.isEmpty
  | c :: rest => needle.isPrefixOf (c :: rest) || hasSubstrList needle rest

/-- Python `needle in hay` substring containment. -/
def pyContains (hay needle : String) : Bool :=
  hasSubstrList needle.data hay.data

/-- Python `str.split()` with no separator: split on whitespace runs, dropping
empty pieces. The accumulator holds the current word reversed. -/
def pySplitAux : List Char → List Char → List (List Char)
  | [], cur => if cur.isEmpty then [] else [cur.reverse]
  | c :: rest, cur =>
    if isPySpace c then
      if cur.isEmpty then pySplitAux rest [] else cur.reverse :: pySplitAux rest []
    else
      pySplitAux rest (c :: cur)

/-- Python `len(s.split())`: number of whitespace-separated words. -/
def pyWordCount (s : String) : Nat :=
  (pySplitAux s.data []).length

/-! ## Response validators (src/utils/validation.py) -/

/-- Character class of the regex `^[a-z\s\-&]+$` used by `sanitise_area_name`. -/
def areaAllowedChar (c : Char) : Bool :=
  ('a' ≤ c && c ≤ 'z') || isPySpace c || c = '-' || c = '&'

/-- Whether the regex `^[a-z\s\-&]+$` matches a whole string: the string is
non-empty and every character is in the class. -/
def areaRegexMatches (s : String) : Bool :=
  !s.data.isEmpty && s.data.all areaAllowedChar

/-- The transformation part of `sanitise_area_name`:
`area.replace("_", " ").lower().strip()`. -/
def sanitiseTransform (area : String) : String :=
  pyStrip ⟨area.data.map (fun c => Char.toLower (if c = '_' then ' ' else c))⟩

/-- Embedding of `sanitise_area_name` (src/utils/validation.py): transform the
input, then raise `ValueError` (modelled as `Except.error`) when the regex
`^[a-z\s\-&]+$` does not match the transformed result. -/
def sanitise_area_name (area : String) : Except String String :=
  let sanitised := sanitiseTransform area
  if areaRegexMatches sanitised then Except.ok sanitised
  else Except.error ("Invalid area name: " ++ area)

/-- The character set named by the specification sentence for
`sanitise_area_name`: lowercase letters, spaces, hyphens, and ampersands
(note: literal spaces, not arbitrary whitespace). -/
def claimAllowedChar (c : Char) : Bool :=
  ('a' ≤ c && c ≤ 'z') || c = ' ' || c = '-' || c = '&'

/-- Embedding of `validate_concepts` (src/utils/validation.py): strip each
entry, drop it when empty or when its word count exceeds 10, keep the rest
in order. -/
def validate_concepts : List String → List String
  | [] => []
  | concept :: rest =>
    let c := pyStrip concept
    if c.isEmpty then validate_concepts rest
    else if 10 < pyWordCount c then validate_concepts rest
    else c :: validate_concepts rest

/-- The four option markers required by `validate_quiz_format`. -/
def requiredOptions : List String := ["A.", "B.", "C.", "D."]

/-- Embedding of `validate_quiz_format` (src/utils/validation.py): the text
must start with the literal header and contain all four option markers. -/
def validate_quiz_format (quiz_text : String) : Bool :=
  if !pyStartsWith quiz_text "Quiz:" then false
  else requiredOptions.all (fun opt => pyContains quiz_text opt)

/-! ## Backoff retrier (src/utils/retry.py) -/

/-- Possible outcomes of `retry_with_backoff`: a successful return value, the
re-raised exception of the final failed attempt, or the trailing
`RuntimeError("Retry logic exhausted without raising exception")` reached
when the loop body never runs. -/
inductive RetryOutcome (ε α : Type) where
  | ok (value : α)
  | failed (e : ε)
  | exhausted
deriving DecidableEq

/-- Observable trace of one `retry_with_backoff` call: its outcome, the number
of invocations of the wrapped operation, and the list of delays slept
(in order). -/
structure RetryTrace (ε α : Type) where
  outcome : RetryOutcome ε α
  calls : Nat
  sleeps : List ℚ
deriving DecidableEq

/-- Python builtin `min` on two numbers: the first argument when it is less
than or equal to the second, the second otherwise. -/
def pyMin (a b : ℚ) : ℚ :=
  if a ≤ b then a else b

theorem pyMin_eq_min (a b : ℚ) : pyMin a b = min a b :=
  (min_def a b).symm

/-- Delay computed before retrying after failed attempt `attempt`:
`min(base_delay * 2 ** attempt, max_delay)`, plus the drawn jitter value when
jitter is enabled. -/
def backoffDelay (baseDelay maxDelay : ℚ) (jitter : Bool) (j : Nat → ℚ)
    (attempt : Nat) : ℚ :=
  pyMin (baseDelay * 2 ^ attempt) maxDelay + (if jitter then j attempt else 0)

/-- Loop body of `retry_with_backoff` over the list of attempt indices
(`for attempt in range(max_retries)`). The `i`-th invocation of the wrapped
operation is modelled by `f i`. Falling off the end of the list is the
trailing `raise RuntimeError(...)`. -/
def retryGo {ε α : Type} (f : Nat → Except ε α) (maxRetries : Int) (d : Nat → ℚ) :
    List Nat → RetryTrace ε α
  | [] => ⟨RetryOutcome.exhausted, 0, []⟩
  | attempt :: rest =>
    match f attempt with
    | Except.ok a => ⟨RetryOutcome.ok a, 1, []⟩
    | Except.error e =>
      if (attempt : Int) = maxRetries - 1 then ⟨RetryOutcome.failed e, 1, []⟩
      else
        let r := retryGo f maxRetries d rest
        ⟨r.outcome, r.calls + 1, d attempt :: r.sleeps⟩

/-- Embedding of `retry_with_backoff` (src/utils/retry.py). `maxRetries` is an
integer as in Python; `range(max_retries)` is empty when it is non-positive. -/
def retry_with_backoff {ε α : Type} (f : Nat → Except ε α) (maxRetries : Int)
    (baseDelay maxDelay : ℚ) (jitter : Bool) (j : Nat → ℚ) : RetryTrace ε α :=
  retryGo f maxRetries (backoffDelay baseDelay maxDelay jitter j)
    (List.range maxRetries.toNat)

theorem retryGo_nil {ε α : Type} (f : Nat → Except ε α) (M : Int) (d : Nat → ℚ) :
    retryGo f M d [] = ⟨RetryOutcome.exhausted, 0, []⟩ := rfl

theorem retryGo_cons_ok {ε α : Type} {f : Nat → Except ε α} {M : Int} {d : Nat → ℚ}
    {attempt : Nat} {rest : List Nat} {a : α} (h : f attempt = Except.ok a) :
    retryGo f M d (attempt :: rest) = ⟨RetryOutcome.ok a, 1, []⟩ := by
  simp [retryGo, h]

theorem retryGo_cons_error_last {ε α : Type} {f : Nat → Except ε α} {M : Int}
    {d : Nat → ℚ} {attempt : Nat} {rest : List Nat} {e : ε}
    (h : f attempt = Except.error e) (hl : (attempt : Int) = M - 1) :
    retryGo f M d (attempt :: rest) = ⟨RetryOutcome.failed e, 1, []⟩ := by
  simp [retryGo, h, hl]

theorem retryGo_cons_error_cont {ε α : Type} {f : Nat → Except ε α} {M : Int}
    {d : Nat → ℚ} {attempt : Nat} {rest : List Nat} {e : ε}
    (h : f attempt = Except.error e) (hl : ¬((attempt : Int) = M - 1)) :
    retryGo f M d (attempt :: rest) =
      ⟨(retryGo f M d rest).outcome, (retryGo f M d rest).calls + 1,
        d attempt :: (retryGo f M d rest).sleeps⟩ := by
  simp [retryGo, h, hl]

/-- A successful outcome of the retry loop always comes from one of the listed
invocations of the wrapped operation. -/
theorem retryGo_ok_inv {ε α : Type} {f : Nat → Except ε α} {M : Int} {d : Nat → ℚ} :
    ∀ {l : List Nat} {a : α}, (retryGo f M d l).outcome = RetryOutcome.ok a →
      ∃ i ∈ l, f i = Except.ok a := by
  intro l
  induction l with
  | nil => intro a h; simp [retryGo_nil] at h
  | cons attempt rest ih =>
    intro a h
    cases hf : f attempt with
    | ok b =>
      rw [retryGo_cons_ok hf] at h
      obtain rfl : b = a := by cases h; rfl
      exact ⟨attempt, List.mem_cons_self attempt rest, hf⟩
    | error e =>
      by_cases hl : (attempt : Int) = M - 1
      · rw [retryGo_cons_error_last hf hl] at h
        cases h
      · rw [retryGo_cons_error_cont hf hl] at h
        obtain ⟨i, hi, hfi⟩ := ih h
        exact ⟨i, List.mem_cons_of_mem attempt hi, hfi⟩

/-- Retry loop over attempts `s, s+1, ..., s+n-1` (with `s + n = N` total
attempts): when the first `k` listed attempts fail and attempt `s + k`
succeeds with `v`, the loop returns `v`, makes `k + 1` calls, and sleeps the
computed delay after each of the `k` failed attempts. -/
theorem retryGo_ok_spec {ε α : Type} (f : Nat → Except ε α) (N : Nat) (d : Nat → ℚ)
    (v : α) :
    ∀ (k s n : Nat), s + n = N → k < n →
      (∀ i, i < k → ∃ e, f (s + i) = Except.error e) →
      f (s + k) = Except.ok v →
      retryGo f (N : Int) d (List.range' s n) =
        ⟨RetryOutcome.ok v, k + 1, (List.range' s k).map d⟩ := by
  intro k
  induction k with
  | zero =>
    intro s n hsn hkn _ hok
    obtain ⟨m, rfl⟩ : ∃ m, n = m + 1 := ⟨n - 1, by omega⟩
    have hs : f s = Except.ok v := by simpa using hok
    rw [List.range'_succ, retryGo_cons_ok hs]
    simp
  | succ k ih =>
    intro s n hsn hkn hfail hok
    obtain ⟨m, rfl⟩ : ∃ m, n = m + 1 := ⟨n - 1, by omega⟩
    obtain ⟨e, he⟩ := hfail 0 (Nat.succ_pos k)
    have hs : f s = Except.error e := by simpa using he
    have hne : ¬((s : Int) = (N : Int) - 1) := by omega
    have hok1 : f (s + 1 + k) = Except.ok v := by
      have hh : s + (k + 1) = s + 1 + k := by omega
      rw [hh] at hok; exact hok
    have hfail1 : ∀ i, i < k → ∃ e, f (s + 1 + i) = Except.error e := by
      intro i hi
      have hh : s + 1 + i = s + (i + 1) := by omega
      rw [hh]
      exact hfail (i + 1) (by omega)
    rw [List.range'_succ, retryGo_cons_error_cont hs hne,
      ih (s + 1) m (by omega) (by omega) hfail1 hok1]
    rw [List.range'_succ]
    simp

/-- Retry loop over attempts `s, ..., s+n-1` with `s + n = N`, `n ≥ 1`: when
every listed attempt fails, the loop re-raises the failure of the final
attempt `N - 1`, makes `n` calls, and sleeps after each attempt but the
last. -/
theorem retryGo_fail_spec {ε α : Type} (f : Nat → Except ε α) (N : Nat) (d : Nat → ℚ) :
    ∀ (n s : Nat), s + n = N → 1 ≤ n →
      (∀ i, i < n → ∃ e, f (s + i) = Except.error e) →
      ∃ e, f (N - 1) = Except.error e ∧
        retryGo f (N : Int) d (List.range' s n) =
          ⟨RetryOutcome.failed e, n, (List.range' s (n - 1)).map d⟩ := by
  intro n
  induction n with
  | zero => intro s _ h; omega
  | succ m ih =>
    intro s hsn _ hfail
    obtain ⟨e, he⟩ := hfail 0 (Nat.succ_pos m)
    have hs : f s = Except.error e := by simpa using he
    rcases Nat.eq_zero_or_pos m with hm | hm
    · subst hm
      have hl : (s : Int) = (N : Int) - 1 := by omega
      refine ⟨e, ?_, ?_⟩
      · have : N - 1 = s := by omega
        rw [this]; exact hs
      · rw [List.range'_succ, retryGo_cons_error_last hs hl]
        simp
    · have hne : ¬((s : Int) = (N : Int) - 1) := by omega
      have hfail1 : ∀ i, i < m → ∃ e, f (s + 1 + i) = Except.error e := by
        intro i hi
        have hh : s + 1 + i = s + (i + 1) := by omega
        rw [hh]
        exact hfail (i + 1) (by omega)
      obtain ⟨e₁, he₁, hrun⟩ := ih (s + 1) (by omega) hm hfail1
      refine ⟨e₁, he₁, ?_⟩
      rw [List.range'_succ, retryGo_cons_error_cont hs hne, hrun]
      have hm1 : m = (m - 1) + 1 := by omega
      simp only [Nat.succ_sub_one]
      rw [hm1, List.range'_succ]
      simp [← hm1]

/-- Retry loop over attempts `s, ..., s+n-1` with `s + n = N`: when the first
`i + 1` listed attempts all fail and are not the final attempt, the slept
delays start with the computed delays of attempts `s, ..., s+i`. -/
theorem retryGo_sleeps_take {ε α : Type} (f : Nat → Except ε α) (N : Nat)
    (d : Nat → ℚ) :
    ∀ (i s n : Nat), s + n = N → i + 1 < n →
      (∀ t, t ≤ i → ∃ e, f (s + t) = Except.error e) →
      ∃ rest, (retryGo f (N : Int) d (List.range' s n)).sleeps =
        (List.range' s (i + 1)).map d ++ rest := by
  intro i
  induction i with
  | zero =>
    intro s n hsn hin hfail
    obtain ⟨m, rfl⟩ : ∃ m, n = m + 1 := ⟨n - 1, by omega⟩
    obtain ⟨e, he⟩ := hfail 0 (Nat.le_refl 0)
    have hs : f s = Except.error e := by simpa using he
    have hne : ¬((s : Int) = (N : Int) - 1) := by omega
    rw [List.range'_succ]
    exact ⟨(retryGo f (N : Int) d (List.range' (s + 1) m)).sleeps,
      by rw [retryGo_cons_error_cont hs hne]; simp⟩
  | succ i ih =>
    intro s n hsn hin hfail
    obtain ⟨m, rfl⟩ : ∃ m, n = m + 1 := ⟨n - 1, by omega⟩
    obtain ⟨e, he⟩ := hfail 0 (Nat.zero_le _)
    have hs : f s = Except.error e := by simpa using he
    have hne : ¬((s : Int) = (N : Int) - 1) := by omega
    have hfail1 : ∀ t, t ≤ i → ∃ e, f (s + 1 + t) = Except.error e := by
      intro t ht
      have hh : s + 1 + t = s + (t + 1) := by omega
      rw [hh]
      exact hfail (t + 1) (by omega)
    obtain ⟨rest, hrest⟩ := ih (s + 1) m (by omega) (by omega) hfail1
    refine ⟨rest, ?_⟩
    rw [List.range'_succ, retryGo_cons_error_cont hs hne,
      show (i + 1 + 1) = (i + 1) + 1 from rfl, List.range'_succ]
    simp [hrest]

/-- C2: for `max_retries ≥ 1`, if the wrapped operation fails exactly `k`
times and then succeeds with `k < max_retries`, `retry_with_backoff` returns
the success value, invokes the operation exactly `k + 1` times, and sleeps
exactly `k` times (once after each failed attempt); if the operation fails on
every invocation, it invokes the operation exactly `max_retries` times, sleeps
`max_retries - 1` times, and propagates the final attempt's failure
unchanged. -/
theorem retry_with_backoff_spec {ε α : Type} (f : Nat → Except ε α) (maxRetries : Int)
    (baseDelay maxDelay : ℚ) (jitter : Bool) (j : Nat → ℚ)
    (hpos : 1 ≤ maxRetries) :
    (∀ (k : Nat) (v : α), (k : Int) < maxRetries →
        (∀ i, i < k → ∃ e, f i = Except.error e) → f k = Except.ok v →
        retry_with_backoff f maxRetries baseDelay maxDelay jitter j =
          ⟨RetryOutcome.ok v, k + 1,
            (List.range k).map (backoffDelay baseDelay maxDelay jitter j)⟩) ∧
    ((∀ i : Nat, (i : Int) < maxRetries → ∃ e, f i = Except.error e) →
      ∃ e, f (maxRetries.toNat - 1) = Except.error e ∧
        retry_with_backoff f maxRetries baseDelay maxDelay jitter j =
          ⟨RetryOutcome.failed e, maxRetries.toNat,
            (List.range (maxRetries.toNat - 1)).map
              (backoffDelay baseDelay maxDelay jitter j)⟩) := by
  have hN : ((maxRetries.toNat : Int)) = maxRetries := Int.toNat_of_nonneg (by omega)
  constructor
  · intro k v hk hfail hok
    have hrun := retryGo_ok_spec f maxRetries.toNat
      (backoffDelay baseDelay maxDelay jitter j) v k 0 maxRetries.toNat
      (by omega) (by omega) (fun i hi => by simpa using hfail i hi)
      (by simpa using hok)
    rw [hN] at hrun
    unfold retry_with_backoff
    rw [List.range_eq_range', hrun, List.range_eq_range']
  · intro hfail
    obtain ⟨e, he, hrun⟩ := retryGo_fail_spec f maxRetries.toNat
      (backoffDelay baseDelay maxDelay jitter j) maxRetries.toNat 0
      (by omega) (by omega) (fun i hi => by simpa using hfail i (by omega))
    refine ⟨e, he, ?_⟩
    rw [hN] at hrun
    unfold retry_with_backoff
    rw [List.range_eq_range', hrun, List.range_eq_range']

theorem retry_with_backoff_spec_witness :
    retry_with_backoff (fun i => if i = 0 then Except.error "boom" else Except.ok 7)
      3 1 60 false (fun _ => 0) = ⟨RetryOutcome.ok 7, 2, [1]⟩ := by
  have h := (retry_with_backoff_spec
      (fun i => if i = 0 then Except.error "boom" else Except.ok 7)
      3 1 60 false (fun _ => 0) (by norm_num)).1 1 7 (by norm_num)
      (fun i hi => by
        obtain rfl : i = 0 := by omega
        exact ⟨"boom", rfl⟩) rfl
  rw [h]
  norm_num [backoffDelay, pyMin, List.range_succ]

/-- C6: the delay slept after failed attempt `i` (0-indexed, not the final
attempt) is `min(base_delay * 2 ^ i, max_delay)` when jitter is disabled, and
that value plus the drawn jitter value — a number in `[0, 1)` — when jitter is
enabled. -/
theorem retry_backoff_delay_spec {ε α : Type} (f : Nat → Except ε α) (maxRetries : Int)
    (baseDelay maxDelay : ℚ) (jitter : Bool) (j : Nat → ℚ) (i : Nat)
    (hj : ∀ t, 0 ≤ j t ∧ j t < 1)
    (hi : (i : Int) < maxRetries - 1)
    (hfail : ∀ t, t ≤ i → ∃ e, f t = Except.error e) :
    (retry_with_backoff f maxRetries baseDelay maxDelay jitter j).sleeps[i]? =
      some (min (baseDelay * 2 ^ i) maxDelay + (if jitter then j i else 0)) ∧
    0 ≤ j i ∧ j i < 1 := by
  have hN : ((maxRetries.toNat : Int)) = maxRetries := Int.toNat_of_nonneg (by omega)
  obtain ⟨rest, hrest⟩ := retryGo_sleeps_take f maxRetries.toNat
    (backoffDelay baseDelay maxDelay jitter j) i 0 maxRetries.toNat
    (by omega) (by omega) (fun t ht => by simpa using hfail t ht)
  refine ⟨?_, hj i⟩
  rw [hN] at hrest
  unfold retry_with_backoff
  rw [List.range_eq_range', hrest, List.getElem?_append]
  have hlen : i < ((List.range' 0 (i + 1)).map
      (backoffDelay baseDelay maxDelay jitter j)).length := by
    simp
  rw [if_pos hlen, List.getElem?_map, List.getElem?_range' 0 1 (by omega)]
  simp [backoffDelay, pyMin_eq_min]

theorem retry_backoff_delay_spec_witness :
    (retry_with_backoff (fun _ => (Except.error "boom" : Except String Nat))
        3 1 60 true (fun _ => (1:ℚ)/2)).sleeps[0]? =
      some (min ((1:ℚ) * 2 ^ (0:Nat)) 60 + (if (true : Bool) then (1:ℚ)/2 else 0)) ∧
    (0:ℚ) ≤ (1:ℚ)/2 ∧ (1:ℚ)/2 < 1 :=
  retry_backoff_delay_spec _ 3 1 60 true _ 0 (fun _ => by norm_num) (by norm_num)
    (fun _ _ => ⟨"boom", rfl⟩)

/-- C10: when `max_retries ≤ 0` the loop body never runs, so the wrapped
operation is never invoked (0 calls) and the call ends in the trailing
`RuntimeError` rather than returning a result or an operation failure. -/
theorem retry_nonpositive_spec {ε α : Type} (f : Nat → Except ε α) (maxRetries : Int)
    (baseDelay maxDelay : ℚ) (jitter : Bool) (j : Nat → ℚ)
    (h : maxRetries ≤ 0) :
    retry_with_backoff f maxRetries baseDelay maxDelay jitter j =
      ⟨RetryOutcome.exhausted, 0, []⟩ := by
  unfold retry_with_backoff
  rw [Int.toNat_of_nonpos h]
  rfl

theorem retry_nonpositive_spec_witness :
    retry_with_backoff (fun _ => (Except.ok 5 : Except String Nat)) (-2) 1 60 true
      (fun _ => 0) = ⟨RetryOutcome.exhausted, 0, []⟩ :=
  retry_nonpositive_spec _ (-2) 1 60 true _ (by norm_num)

/-! ## Claims about the validators -/

theorem areaRegexMatches_iff (s : String) :
    areaRegexMatches s = true ↔
      s.data ≠ [] ∧ ∀ c ∈ s.data, areaAllowedChar c = true := by
  simp [areaRegexMatches, List.all_eq_true, List.isEmpty_iff]

/-- C4 counterexample: the claimed raise condition ("raises iff the
transformed result contains a character outside lowercase letters, spaces,
hyphens, and ampersands") fails in both directions: the empty string contains
no such character yet raises, and `"a\tb"` contains a tab (not a space) yet
is returned without raising, because the regex class `\s` accepts every
whitespace character. -/
theorem sanitise_area_name_cex :
    sanitise_area_name "" = Except.error "Invalid area name: " ∧
    ("" : String).data.all claimAllowedChar = true ∧
    sanitise_area_name "a\tb" = Except.ok "a\tb" ∧
    (sanitiseTransform "a\tb").data.all claimAllowedChar = false := by
  refine ⟨rfl, rfl, rfl, by decide⟩

/-- C4 (amended): `sanitise_area_name` returns its input with underscores
replaced by spaces, lowercased and trimmed, and raises `ValueError` if and
only if that transformed result is empty or contains a character outside
lowercase letters, whitespace, hyphens, and ampersands; in particular
`sanitise_area_name "Ancient_History"` returns `"ancient history"` and
`sanitise_area_name "Math!!"` raises. -/
theorem sanitise_area_name_spec (area : String) :
    (sanitise_area_name area = Except.ok (sanitiseTransform area) ∨
      sanitise_area_name area = Except.error ("Invalid area name: " ++ area)) ∧
    (sanitise_area_name area = Except.error ("Invalid area name: " ++ area) ↔
      (sanitiseTransform area).data = [] ∨
        ∃ c ∈ (sanitiseTransform area).data, areaAllowedChar c = false) ∧
    sanitise_area_name "Ancient_History" = Except.ok "ancient history" ∧
    sanitise_area_name "Math!!" = Except.error "Invalid area name: Math!!" := by
  refine ⟨?_, ?_, rfl, rfl⟩
  · unfold sanitise_area_name
    by_cases h : areaRegexMatches (sanitiseTransform area)
    · exact Or.inl (by simp [h])
    · exact Or.inr (by simp [h])
  · unfold sanitise_area_name
    by_cases h : areaRegexMatches (sanitiseTransform area)
    · rw [if_pos h]
      rw [areaRegexMatches_iff] at h
      simp only [reduceCtorEq, false_iff]
      push_neg
      exact ⟨h.1, fun c hc => by simp [h.2 c hc]⟩
    · rw [if_neg h]
      rw [areaRegexMatches_iff] at h
      push_neg at h
      simp only [Except.error.injEq, eq_self_iff_true, true_iff]
      by_cases hd : (sanitiseTransform area).data = []
      · exact Or.inl hd
      · obtain ⟨c, hc, hcb⟩ := h hd
        exact Or.inr ⟨c, hc, by simpa using hcb⟩

theorem sanitise_area_name_spec_witness :
    sanitise_area_name "Math!!" = Except.error "Invalid area name: Math!!" :=
  (sanitise_area_name_spec "Math!!").2.2.2

/-- C8: `validate_quiz_format` never raises (it is a total boolean function)
and returns true if and only if the text starts with the literal header
`"Quiz:"` and contains each of the four substrings `"A."`, `"B."`, `"C."`,
`"D."`; the two concrete examples behave as claimed. -/
theorem validate_quiz_format_spec :
    (∀ t : String, validate_quiz_format t = true ↔
      (pyStartsWith t "Quiz:" = true ∧ pyContains t "A." = true ∧
        pyContains t "B." = true ∧ pyContains t "C." = true ∧
        pyContains t "D." = true)) ∧
    validate_quiz_format "Quiz: X?\nA. 1\nB. 2\nC. 3" = false ∧
    validate_quiz_format "Quiz: X?\nA. 1\nB. 2\nC. 3\nD. 4" = true := by
  refine ⟨?_, by decide, by decide⟩
  intro t
  unfold validate_quiz_format requiredOptions
  by_cases h : pyStartsWith t "Quiz:"
  · simp [h, and_assoc]
  · simp [h]

theorem validate_quiz_format_spec_witness :
    validate_quiz_format "Quiz: X?\nA. 1\nB. 2\nC. 3\nD. 4" = true :=
  validate_quiz_format_spec.2.2

/-- C9: `validate_concepts` returns exactly the trimmed entries that are
non-blank and have at most 10 whitespace-separated words, in input order;
the concrete example returns `["carbon"]`. -/
theorem validate_concepts_spec :
    (∀ l : List String, validate_concepts l =
      (l.map pyStrip).filter
        (fun c => !c.isEmpty && decide (pyWordCount c ≤ 10))) ∧
    validate_concepts ["carbon",
      "a very long sentence with way more than ten words in it describing something"] =
      ["carbon"] := by
  refine ⟨?_, by decide⟩
  intro l
  induction l with
  | nil => rfl
  | cons c rest ih =>
    simp only [validate_concepts, List.map_cons, List.filter_cons]
    by_cases h1 : (pyStrip c).isEmpty
    · simp [h1, ih]
    · by_cases h2 : 10 < pyWordCount (pyStrip c)
      · have h2' : ¬(pyWordCount (pyStrip c) ≤ 10) := by omega
        simp [h1, h2, h2', ih]
      · have h2' : pyWordCount (pyStrip c) ≤ 10 := by omega
        simp [h1, h2, h2', ih]

theorem validate_concepts_spec_witness :
    validate_concepts ["carbon",
      "a very long sentence with way more than ten words in it describing something"] =
      ["carbon"] :=
  validate_concepts_spec.2

/-! ## Content cache (src/utils/cache.py) and the per-question fetch loop of
`generate_quiz` (src/pipeline/quiz.py) -/

/-- A persisted cache record, as written by `WikipediaCache.set`: the page id
and the page content (the `concept` field is the key itself). -/
structure CacheEntry where
  page_id : String
  content : String
deriving DecidableEq

/-- The on-disk cache, modelled as an association list from the exact concept
string to its entry. The MD5-hashed filename is keyed by the exact string, so
lookup is by exact string equality; a newer `set` shadows an older entry. -/
abbrev Cache := List (String × CacheEntry)

/-- Embedding of `WikipediaCache.get`: return the stored content for the
concept, or none when no entry exists. -/
def cacheGet (cache : Cache) (concept : String) : Option String :=
  match cache.find? (fun p => p.1 == concept) with
  | some p => some p.2.content
  | none => none

/-- Embedding of `WikipediaCache.set`: write (or overwrite, by shadowing) the
entry for the concept. -/
def cacheSet (cache : Cache) (concept content page_id : String) : Cache :=
  (concept, ⟨page_id, content⟩) :: cache

/-- Python truthiness of `wiki_cache.get(concept)`: `None` and the empty
string are falsy, any non-empty string is truthy. -/
def pyTruthyOptStr (o : Option String) : Bool :=
  match o with
  | some s => !s.isEmpty
  | none => false

/-- An in-memory llama-index `Document`: optional id and text. -/
structure Doc where
  doc_id : Option String
  text : String
deriving DecidableEq

/-- Observable event of the per-concept loop: a document built from cache, a
document built from an external fetch (which was stored into the cache), or a
logged warning for a failed fetch (the concept is skipped). -/
inductive FetchAction where
  | cached (concept content : String)
  | fetched (concept content page_id : String)
  | fetchFailed (concept : String)
deriving DecidableEq

/-- The concept named by a fetch action. -/
def FetchAction.concept : FetchAction → String
  | FetchAction.cached c _ => c
  | FetchAction.fetched c _ _ => c
  | FetchAction.fetchFailed c => c

/-- Result of the per-question fetch loop: the documents collected, the cache
after the loop, and the trace of per-concept events. -/
structure FetchRun where
  docs : List Doc
  cache : Cache
  trace : List FetchAction
deriving DecidableEq

/-- Embedding of the per-concept loop of `generate_quiz`
(src/pipeline/quiz.py lines 80-108). `fetch c` models
`wiki_obj.page(c)` returning the page text and page id, or raising. A truthy
cached value is used directly; otherwise the page is fetched, and on success
cached (`wiki_cache.set`) before the `Document` is built; on failure a
warning is logged and the concept is skipped. -/
def fetchConcepts (fetch : String → Except String (String × String)) :
    List String → Cache → FetchRun
  | [], cache => ⟨[], cache, []⟩
  | concept :: rest, cache =>
    let cached_content := cacheGet cache concept
    if pyTruthyOptStr cached_content then
      let content := cached_content.getD ""
      let r := fetchConcepts fetch rest cache
      ⟨⟨none, content⟩ :: r.docs, r.cache, FetchAction.cached concept content :: r.trace⟩
    else
      match fetch concept with
      | Except.ok (page_content, page_id) =>
        let cache1 := cacheSet cache concept page_content page_id
        let r := fetchConcepts fetch rest cache1
        ⟨⟨some page_id, page_content⟩ :: r.docs, r.cache,
          FetchAction.fetched concept page_content page_id :: r.trace⟩
      | Except.error _ =>
        let r := fetchConcepts fetch rest cache
        ⟨r.docs, r.cache, FetchAction.fetchFailed concept :: r.trace⟩

theorem cacheGet_set_ne {cache : Cache} {c t content page_id : String} (h : c ≠ t) :
    cacheGet (cacheSet cache c content page_id) t = cacheGet cache t := by
  unfold cacheGet cacheSet
  rw [List.find?_cons_of_neg]
  simpa using h

theorem fetchConcepts_cons_cached {fetch : String → Except String (String × String)}
    {concept : String} {rest : List String} {cache : Cache}
    (h : pyTruthyOptStr (cacheGet cache concept) = true) :
    fetchConcepts fetch (concept :: rest) cache =
      ⟨⟨none, (cacheGet cache concept).getD ""⟩ :: (fetchConcepts fetch rest cache).docs,
        (fetchConcepts fetch rest cache).cache,
        FetchAction.cached concept ((cacheGet cache concept).getD "") ::
          (fetchConcepts fetch rest cache).trace⟩ := by
  simp [fetchConcepts, h]

theorem fetchConcepts_cons_fetch_ok {fetch : String → Except String (String × String)}
    {concept page_content page_id : String} {rest : List String} {cache : Cache}
    (h : pyTruthyOptStr (cacheGet cache concept) = false)
    (hf : fetch concept = Except.ok (page_content, page_id)) :
    fetchConcepts fetch (concept :: rest) cache =
      ⟨⟨some page_id, page_content⟩ ::
          (fetchConcepts fetch rest (cacheSet cache concept page_content page_id)).docs,
        (fetchConcepts fetch rest (cacheSet cache concept page_content page_id)).cache,
        FetchAction.fetched concept page_content page_id ::
          (fetchConcepts fetch rest (cacheSet cache concept page_content page_id)).trace⟩ := by
  simp [fetchConcepts, h, hf]

theorem fetchConcepts_cons_fetch_error {fetch : String → Except String (String × String)}
    {concept : String} {rest : List String} {cache : Cache} {e : String}
    (h : pyTruthyOptStr (cacheGet cache concept) = false)
    (hf : fetch concept = Except.error e) :
    fetchConcepts fetch (concept :: rest) cache =
      ⟨(fetchConcepts fetch rest cache).docs, (fetchConcepts fetch rest cache).cache,
        FetchAction.fetchFailed concept :: (fetchConcepts fetch rest cache).trace⟩ := by
  simp [fetchConcepts, h, hf]

/-- C1 counterexample: a Content Cache entry for topic `"t"` exists (written
with the empty content string), yet the retrieval loop performs an external
fetch for `"t"` and builds the Document from the fetched content, because
`if cached_content:` treats the cached empty string as falsy. -/
theorem cache_refetch_on_empty_cex :
    cacheGet [("t", ⟨"id0", ""⟩)] "t" = some "" ∧
    fetchConcepts (fun _ => Except.ok ("text", "42")) ["t"] [("t", ⟨"id0", ""⟩)] =
      ⟨[⟨some "42", "text"⟩], [("t", ⟨"42", "text"⟩), ("t", ⟨"id0", ""⟩)],
        [FetchAction.fetched "t" "text" "42"]⟩ :=
  ⟨rfl, by decide⟩

/-- C1 (amended): for every topic whose Content Cache entry has non-empty
content, the retrieval loop never fetches that topic externally: every
occurrence of the topic in the concept list produces exactly a cache-hit
action whose Document is built from the cached content (a topic cached with
the empty string is treated as a miss and is re-fetched). -/
theorem cache_no_refetch_nonempty (fetch : String → Except String (String × String))
    (t s : String) (hs : s ≠ "") :
    ∀ (concepts : List String) (cache : Cache), cacheGet cache t = some s →
      ((fetchConcepts fetch concepts cache).trace.filter
          (fun a => a.concept == t)) =
        List.replicate (concepts.count t) (FetchAction.cached t s) := by
  intro concepts
  induction concepts with
  | nil =>
    intro cache _
    simp [fetchConcepts]
  | cons c rest ih =>
    intro cache hget
    by_cases hct : c = t
    · subst hct
      have htr : pyTruthyOptStr (cacheGet cache c) = true := by
        rw [hget]
        simp [pyTruthyOptStr, Bool.eq_false_iff, String.isEmpty_iff, hs]
      rw [fetchConcepts_cons_cached htr, hget]
      simp only [Option.getD_some]
      rw [List.filter_cons_of_pos (by simp [FetchAction.concept])]
      rw [ih cache hget]
      simp [List.count_cons, List.replicate_succ]
    · by_cases htr : pyTruthyOptStr (cacheGet cache c) = true
      · rw [fetchConcepts_cons_cached htr]
        rw [List.filter_cons_of_neg (by simpa [FetchAction.concept] using hct)]
        rw [ih cache hget]
        simp [List.count_cons, hct]
      · rcases hf : fetch c with e | pr
        · rw [fetchConcepts_cons_fetch_error (by simpa using htr) hf]
          rw [List.filter_cons_of_neg (by simpa [FetchAction.concept] using hct)]
          rw [ih cache hget]
          simp [List.count_cons, hct]
        · obtain ⟨page_content, page_id⟩ := pr
          rw [fetchConcepts_cons_fetch_ok (by simpa using htr) hf]
          rw [List.filter_cons_of_neg (by simpa [FetchAction.concept] using hct)]
          rw [ih (cacheSet cache c page_content page_id)
            ((cacheGet_set_ne hct).trans hget)]
          simp [List.count_cons, hct]

theorem cache_no_refetch_nonempty_witness :
    ((fetchConcepts (fun _ => Except.error "down") ["t", "u"]
        [("t", ⟨"id0", "body"⟩)]).trace.filter
      (fun a => a.concept == "t")) =
      List.replicate ((["t", "u"] : List String).count "t")
        (FetchAction.cached "t" "body") :=
  cache_no_refetch_nonempty _ "t" "body" (by decide) ["t", "u"] _ rfl

/-- C7: on a cache miss whose external fetch raises, the loop records the
logged warning, contributes no Document for that concept, and continues with
the remaining concepts over an unchanged cache; on a successful fetch the
content is stored into the cache keyed by the topic (so a lookup of the topic
in the updated cache returns it) before the Document carrying that content is
prepended. -/
theorem fetch_error_handling_spec (fetch : String → Except String (String × String))
    (c : String) (rest : List String) (cache : Cache)
    (hmiss : cacheGet cache c = none) :
    (∀ e, fetch c = Except.error e →
      fetchConcepts fetch (c :: rest) cache =
        ⟨(fetchConcepts fetch rest cache).docs, (fetchConcepts fetch rest cache).cache,
          FetchAction.fetchFailed c :: (fetchConcepts fetch rest cache).trace⟩) ∧
    (∀ page_content page_id, fetch c = Except.ok (page_content, page_id) →
      cacheGet (cacheSet cache c page_content page_id) c = some page_content ∧
      fetchConcepts fetch (c :: rest) cache =
        ⟨⟨some page_id, page_content⟩ ::
            (fetchConcepts fetch rest (cacheSet cache c page_content page_id)).docs,
          (fetchConcepts fetch rest (cacheSet cache c page_content page_id)).cache,
          FetchAction.fetched c page_content page_id ::
            (fetchConcepts fetch rest (cacheSet cache c page_content page_id)).trace⟩) := by
  have htr : pyTruthyOptStr (cacheGet cache c) = false := by
    rw [hmiss]
    rfl
  constructor
  · intro e hf
    exact fetchConcepts_cons_fetch_error htr hf
  · intro page_content page_id hf
    refine ⟨?_, fetchConcepts_cons_fetch_ok htr hf⟩
    simp [cacheGet, cacheSet]

theorem fetch_error_handling_spec_witness :
    fetchConcepts (fun _ => Except.error "down") ["a"] [] =
      ⟨(fetchConcepts (fun _ => Except.error "down") [] []).docs,
        (fetchConcepts (fun _ => Except.error "down") [] []).cache,
        FetchAction.fetchFailed "a" ::
          (fetchConcepts (fun _ => Except.error "down") [] []).trace⟩ :=
  (fetch_error_handling_spec (fun _ => Except.error "down") "a" [] [] rfl).1 "down" rfl

/-! ## Per-question index load-or-build step (src/pipeline/quiz.py
lines 110-115) -/

/-- Observable event of one per-question index step: the persisted index was
loaded from storage, or a fresh index was built from the given documents
(and immediately persisted). The payload is the document set the used index
was built from. -/
inductive IndexAction where
  | loaded (docs : List Doc)
  | built (docs : List Doc)
deriving DecidableEq

/-- Whether an index action is a fresh build. -/
def IndexAction.isBuild : IndexAction → Bool
  | IndexAction.built _ => true
  | IndexAction.loaded _ => false

/-- One per-question index step: when a persisted index exists
(`os.path.exists(INDEX_DIR)`) it is loaded and storage is unchanged;
otherwise a fresh index is built from the current question's documents and
persisted immediately. The state is the document set the persisted index was
built from, or none when `INDEX_DIR` does not exist. -/
def indexStep (persisted : Option (List Doc)) (wiki_docs : List Doc) :
    Option (List Doc) × IndexAction :=
  match persisted with
  | some idx => (some idx, IndexAction.loaded idx)
  | none => (some wiki_docs, IndexAction.built wiki_docs)

/-- The index steps of a whole run: one step per question (each question
carrying its own document set), threading the persisted-index state. Returns
the trace of index actions and the final state. -/
def indexRun (persisted : Option (List Doc)) :
    List (List Doc) → List IndexAction × Option (List Doc)
  | [] => ([], persisted)
  | docs :: rest =>
    let step := indexStep persisted docs
    let r := indexRun step.1 rest
    (step.2 :: r.1, r.2)

theorem indexRun_some (d : List Doc) :
    ∀ qs : List (List Doc), indexRun (some d) qs =
      (qs.map (fun _ => IndexAction.loaded d), some d) := by
  intro qs
  induction qs with
  | nil => rfl
  | cons q rest ih => simp [indexRun, indexStep, ih]

/-- C5: per question, an existing persisted index is loaded instead of being
rebuilt from the current question's documents, and otherwise a fresh index is
built from the current documents and persisted immediately; hence a run
performs at most one fresh build, a run starting with a persisted index
performs none (every question loads that index), and after the first build
every later question loads the first-built index regardless of its own
document set. -/
theorem index_reuse_spec (persisted : Option (List Doc)) (qs : List (List Doc)) :
    ((indexRun persisted qs).1.countP IndexAction.isBuild ≤ 1) ∧
    (∀ d, persisted = some d →
      (indexRun persisted qs).1 = qs.map (fun _ => IndexAction.loaded d)) ∧
    (∀ q rest, persisted = none → qs = q :: rest →
      (indexRun persisted qs).1 =
        IndexAction.built q :: rest.map (fun _ => IndexAction.loaded q)) := by
  refine ⟨?_, ?_, ?_⟩
  · cases persisted with
    | some d =>
      rw [indexRun_some]
      simp only [List.map_const']
      have hz : List.countP IndexAction.isBuild
          (List.replicate qs.length (IndexAction.loaded d)) = 0 := by
        rw [List.countP_eq_zero]
        intro a ha
        obtain rfl := List.eq_of_mem_replicate ha
        simp [IndexAction.isBuild]
      omega
    | none =>
      cases qs with
      | nil => simp [indexRun]
      | cons q rest =>
        simp only [indexRun, indexStep]
        rw [indexRun_some]
        simp [List.countP_cons, List.countP_map, IndexAction.isBuild]
  · intro d hd
    subst hd
    rw [indexRun_some]
  · intro q rest hp hqs
    subst hp
    subst hqs
    simp only [indexRun, indexStep]
    rw [indexRun_some]

theorem index_reuse_spec_witness :
    (indexRun none [[⟨none, "a"⟩], [⟨none, "b"⟩]]).1 =
      IndexAction.built [⟨none, "a"⟩] ::
        ([[⟨none, "b"⟩]] : List (List Doc)).map
          (fun _ => IndexAction.loaded [⟨none, "a"⟩]) :=
  (index_reuse_spec none [[⟨none, "a"⟩], [⟨none, "b"⟩]]).2.2
    [⟨none, "a"⟩] [[⟨none, "b"⟩]] rfl rfl

/-! ## Quiz evaluation (src/pipeline/evaluation.py) -/

/-- The five fixed evaluation dimensions. -/
def EVALUATION_DIMENSIONS : List String :=
  ["Educational Value", "Diversity", "Area Relevance",
    "Difficulty Appropriateness", "Comprehensiveness"]

/-- Embedding of `_create_score_dict`: assign the same score to every
dimension (the Python dict is modelled as an association list in dimension
order). -/
def _create_score_dict (score : Int) : List (String × Int) :=
  EVALUATION_DIMENSIONS.map (fun dim => (dim, score))

/-- The dictionary comprehension
`{dim: scores[dim] for dim in EVALUATION_DIMENSIONS}` at the end of
`evaluate_quiz`: the parsed JSON object is modelled as a partial map from
keys to integer values; a missing key raises `KeyError`, which the retry
wrapper sees as a failed attempt. -/
def extractScores (scores : String → Option Int) :
    Except String (List (String × Int)) :=
  if EVALUATION_DIMENSIONS.all (fun dim => (scores dim).isSome) then
    Except.ok (EVALUATION_DIMENSIONS.map (fun dim => (dim, (scores dim).getD 0)))
  else Except.error "KeyError"

/-- One invocation of the inner `evaluate_quiz` closure: `responses i` models
the `i`-th chat call together with the JSON-block extraction and parse
(`Except.error` covers an empty response, a missing JSON block, and malformed
JSON); on success the score dictionary is built from the parsed object. -/
def evaluate_quiz_attempt (responses : Nat → Except String (String → Option Int))
    (i : Nat) : Except String (List (String × Int)) :=
  (responses i).bind extractScores

/-- Embedding of the per-question body of `evaluate`
(src/pipeline/evaluation.py lines 101-170): an empty quiz list yields the
all-zero score dict; otherwise `evaluate_quiz` is run under
`retry_with_backoff` and any exception escaping it (the final attempt's
failure, or the trailing RuntimeError) is converted to the all-(-1) score
dict. -/
def evaluateQuestion (responses : Nat → Except String (String → Option Int))
    (maxRetries : Int) (baseDelay : ℚ) (j : Nat → ℚ) (quizList : List String) :
    List (String × Int) :=
  if quizList.isEmpty then _create_score_dict 0
  else
    match (retry_with_backoff (evaluate_quiz_attempt responses) maxRetries
        baseDelay 60 true j).outcome with
    | RetryOutcome.ok m => m
    | RetryOutcome.failed _ => _create_score_dict (-1)
    | RetryOutcome.exhausted => _create_score_dict (-1)

theorem extractScores_ok_shape {scores : String → Option Int}
    {m : List (String × Int)} (h : extractScores scores = Except.ok m) :
    m = EVALUATION_DIMENSIONS.map (fun dim => (dim, (scores dim).getD 0)) := by
  unfold extractScores at h
  by_cases hall : EVALUATION_DIMENSIONS.all (fun dim => (scores dim).isSome) = true
  · rw [if_pos hall] at h
    cases h
    rfl
  · rw [if_neg hall] at h
    cases h

theorem evaluate_quiz_attempt_ok_shape
    {responses : Nat → Except String (String → Option Int)} {i : Nat}
    {m : List (String × Int)}
    (h : evaluate_quiz_attempt responses i = Except.ok m) :
    ∃ scores, responses i = Except.ok scores ∧
      m = EVALUATION_DIMENSIONS.map (fun dim => (dim, (scores dim).getD 0)) := by
  unfold evaluate_quiz_attempt at h
  cases hr : responses i with
  | error e =>
    rw [hr] at h
    cases h
  | ok scores =>
    rw [hr] at h
    simp only [Except.bind] at h
    exact ⟨scores, rfl, extractScores_ok_shape h⟩

/-- C3 counterexample: with a non-empty quiz list and a model response whose
JSON assigns 7 to every dimension, the produced score map carries the value
7, which is outside `{-1, 0, 1, ..., 5}` — the success path performs no range
validation. -/
theorem evaluate_scores_range_cex :
    evaluateQuestion (fun _ => Except.ok (fun _ => some 7)) 3 1 (fun _ => 0) ["q"] =
      EVALUATION_DIMENSIONS.map (fun dim => (dim, (7 : Int))) ∧
    ∃ p ∈ EVALUATION_DIMENSIONS.map (fun dim => (dim, (7 : Int))),
      ¬(p.2 = -1 ∨ p.2 = 0 ∨ (1 ≤ p.2 ∧ p.2 ≤ 5)) := by
  refine ⟨rfl, ⟨("Educational Value", 7), by decide, by decide⟩⟩

/-- C3 (amended): every per-question score map produced by `evaluate` has
exactly the five fixed dimensions as its keys; all values are 0 when the
question's quiz list is empty and all values are -1 when every attempt fails
(retries exhausted); on the first successful attempt the values are exactly
the integers the model reported for each dimension — the code performs no
range validation, so they need not lie in 1..5. -/
theorem evaluate_scores_spec (responses : Nat → Except String (String → Option Int))
    (maxRetries : Int) (baseDelay : ℚ) (j : Nat → ℚ) (quizList : List String)
    (hpos : 1 ≤ maxRetries) :
    ((evaluateQuestion responses maxRetries baseDelay j quizList).map Prod.fst =
      EVALUATION_DIMENSIONS) ∧
    (quizList = [] →
      evaluateQuestion responses maxRetries baseDelay j quizList =
        EVALUATION_DIMENSIONS.map (fun dim => (dim, (0 : Int)))) ∧
    (quizList ≠ [] →
      (∀ i : Nat, (i : Int) < maxRetries →
        ∃ e, evaluate_quiz_attempt responses i = Except.error e) →
      evaluateQuestion responses maxRetries baseDelay j quizList =
        EVALUATION_DIMENSIONS.map (fun dim => (dim, (-1 : Int)))) ∧
    (∀ (k : Nat) (scores : String → Option Int), quizList ≠ [] →
      (k : Int) < maxRetries →
      (∀ i, i < k → ∃ e, evaluate_quiz_attempt responses i = Except.error e) →
      responses k = Except.ok scores →
      (∀ dim ∈ EVALUATION_DIMENSIONS, (scores dim).isSome = true) →
      evaluateQuestion responses maxRetries baseDelay j quizList =
        EVALUATION_DIMENSIONS.map (fun dim => (dim, (scores dim).getD 0))) := by
  have hN : ((maxRetries.toNat : Int)) = maxRetries := Int.toNat_of_nonneg (by omega)
  refine ⟨?_, ?_, ?_, ?_⟩
  · by_cases hq : quizList.isEmpty = true
    · unfold evaluateQuestion
      rw [if_pos hq]
      simp [_create_score_dict, List.map_map, Function.comp_def]
    · unfold evaluateQuestion
      rw [if_neg hq]
      cases ho : (retry_with_backoff (evaluate_quiz_attempt responses) maxRetries
          baseDelay 60 true j).outcome with
      | ok m =>
        unfold retry_with_backoff at ho
        obtain ⟨i, _, hfi⟩ := retryGo_ok_inv ho
        obtain ⟨scores, _, rfl⟩ := evaluate_quiz_attempt_ok_shape hfi
        simp [List.map_map, Function.comp_def]
      | failed e =>
        simp [_create_score_dict, List.map_map, Function.comp_def]
      | exhausted =>
        simp [_create_score_dict, List.map_map, Function.comp_def]
  · intro hq
    subst hq
    rfl
  · intro hne hfail
    obtain ⟨e, he, hrun⟩ := retryGo_fail_spec (evaluate_quiz_attempt responses)
      maxRetries.toNat (backoffDelay baseDelay 60 true j) maxRetries.toNat 0
      (by omega) (by omega) (fun i hi => by simpa using hfail i (by omega))
    rw [hN] at hrun
    unfold evaluateQuestion
    rw [if_neg (by simp [List.isEmpty_iff, hne])]
    unfold retry_with_backoff
    rw [List.range_eq_range', hrun]
    rfl
  · intro k scores hne hk hfail hresp hall
    have hattempt : evaluate_quiz_attempt responses k =
        Except.ok (EVALUATION_DIMENSIONS.map (fun dim => (dim, (scores dim).getD 0))) := by
      unfold evaluate_quiz_attempt
      rw [hresp]
      simp only [Except.bind]
      unfold extractScores
      rw [if_pos (by simpa [List.all_eq_true] using hall)]
    have hrun := retryGo_ok_spec (evaluate_quiz_attempt responses) maxRetries.toNat
      (backoffDelay baseDelay 60 true j)
      (EVALUATION_DIMENSIONS.map (fun dim => (dim, (scores dim).getD 0)))
      k 0 maxRetries.toNat (by omega) (by omega)
      (fun i hi => by simpa using hfail i hi) (by simpa using hattempt)
    rw [hN] at hrun
    unfold evaluateQuestion
    rw [if_neg (by simp [List.isEmpty_iff, hne])]
    unfold retry_with_backoff
    rw [List.range_eq_range', hrun]

theorem evaluate_scores_spec_witness :
    evaluateQuestion (fun _ => Except.ok (fun _ => some 3)) 3 1 (fun _ => 0) ["q"] =
      EVALUATION_DIMENSIONS.map
        (fun dim => (dim, (((fun _ => some 3) : String → Option Int) dim).getD 0)) :=
  (evaluate_scores_spec (fun _ => Except.ok (fun _ => some 3)) 3 1 (fun _ => 0) ["q"]
      (by norm_num)).2.2.2 0 (fun _ => some 3) (by simp) (by norm_num)
    (fun i hi => absurd hi (Nat.not_lt_zero i)) rfl (fun _ _ => rfl)

end ConQuerX
